import Mathlib

/-!
Verification of the client-side map synchronization layer of the `linked`
wormhole-mapping application.

The development shallowly embeds the relevant TypeScript source:

* the event reconciler callbacks of `Map.svelte` (`onNodeCreated`,
  `onNodeUpdated`, `onNodeDeleted`, `onEdgeCreated`, `onEdgeUpdated`,
  `onEdgeDeleted`, ...);
* the batch-delete guard `handleBeforeDelete` of `Map.svelte`;
* the compound mutation `createNodeWithConnection` of `mapContextActions.ts`;
* the SSE event dispatch of `createMapSSE` in `mapSSE.ts`;
* the debounced viewport persister of `mapViewport.ts`.

JavaScript numbers are modelled as rationals.  Network requests are modelled
by oracles describing their outcome, and the requests a routine issues are
collected in a list so that ordering and sequencing properties can be stated.
-/

namespace Linked

/-! ## Data model

`NodeInfo` embeds the `EnrichedNodeInfo` payload carried by node events:
an id, a position, the `locked` flag, and denormalized enrichment fields
(represented here by `system_id` and `class_name`; they are opaque to the
reconciler, which only ever replaces them wholesale). -/

structure NodeInfo where
  id : String
  pos_x : ℚ
  pos_y : ℚ
  locked : Bool
  system_id : Nat
  class_name : Option String
  deriving DecidableEq, Repr

structure Position where
  x : ℚ
  y : ℚ
  deriving DecidableEq, Repr

/-- The node view-model kept in the Local Graph Store (the `@xyflow` `Node`
as constructed by `transformNodes` and the SSE handlers: `id`, `position`,
`data`, `draggable`). -/
structure FlowNode where
  id : String
  position : Position
  data : NodeInfo
  draggable : Bool
  deriving DecidableEq, Repr

/-- `EnrichedLinkInfo`: the payload carried by link events. -/
structure LinkInfo where
  id : String
  source_node_id : String
  target_node_id : String
  wormhole_code : Option String
  mass_usage : Nat
  lifetime_status : String
  deriving DecidableEq, Repr

/-- The `data` record stored on a flow edge (built from a `LinkInfo`). -/
structure EdgeData where
  wormhole_id : Option String
  mass_remaining : Nat
  status : String
  deriving DecidableEq, Repr

/-- The edge view-model kept in the Local Graph Store. -/
structure FlowEdge where
  id : String
  source : String
  target : String
  data : EdgeData
  deriving DecidableEq, Repr

/-- `EdgeData` derived from a `LinkInfo` payload, as in `transformEdges` and
the `link_created` / `link_updated` SSE handlers. -/
def linkEdgeData (l : LinkInfo) : EdgeData :=
  { wormhole_id := l.wormhole_code
    mass_remaining := l.mass_usage
    status := l.lifetime_status }

/-! ## Event reconciler (the SSE callbacks of `Map.svelte`)

Each definition mirrors one callback body.  Svelte's
`nodes = [...nodes, newNode]` is `nodes ++ [newNode]`, `nodes.some` is
`List.any`, `nodes.map` is `List.map`, `nodes.filter` is `List.filter`. -/

/-- `onNodeCreated`: if a node with the same id already exists this is a
no-op, otherwise the node is appended. -/
def onNodeCreated (nodes : List FlowNode) (newNode : FlowNode) : List FlowNode :=
  if nodes.any (fun n => n.id = newNode.id) then nodes
  else nodes ++ [newNode]

/-- `onNodeUpdated`: replace the matching node's position, data and
draggability wholesale from the payload; every other entry is returned
untouched.  `isLocked` is the map-level lock flag captured by the closure. -/
def onNodeUpdated (isLocked : Bool) (nodes : List FlowNode) (nodeData : NodeInfo) :
    List FlowNode :=
  nodes.map (fun n =>
    if n.id = nodeData.id then
      { n with
        position := { x := nodeData.pos_x, y := nodeData.pos_y }
        data := nodeData
        draggable := !isLocked && !nodeData.locked }
    else n)

/-- `onNodeDeleted`: drop the node with the given id. -/
def onNodeDeleted (nodes : List FlowNode) (nodeId : String) : List FlowNode :=
  nodes.filter (fun n => n.id ≠ nodeId)

/-- `onEdgeCreated`: if an edge with the same id already exists this is a
no-op, otherwise the edge is appended. -/
def onEdgeCreated (edges : List FlowEdge) (newEdge : FlowEdge) : List FlowEdge :=
  if edges.any (fun e => e.id = newEdge.id) then edges
  else edges ++ [newEdge]

/-- `onEdgeUpdated`: replace the matching edge's source, target and data
wholesale from the payload; every other entry is returned untouched. -/
def onEdgeUpdated (edges : List FlowEdge) (linkData : LinkInfo) : List FlowEdge :=
  edges.map (fun e =>
    if e.id = linkData.id then
      { e with
        source := linkData.source_node_id
        target := linkData.target_node_id
        data := linkEdgeData linkData }
    else e)

/-- `onEdgeDeleted`: drop the edge with the given id. -/
def onEdgeDeleted (edges : List FlowEdge) (edgeId : String) : List FlowEdge :=
  edges.filter (fun e => e.id ≠ edgeId)

/-! ### Helper lemmas about id-keyed lists -/

lemma countP_le_one_of_nodup_keys {α : Type} (key : α → String) {l : List α}
    (h : (l.map key).Nodup) (x : String) :
    l.countP (fun a => key a = x) ≤ 1 := by
  induction l with
  | nil => simp
  | cons a t ih =>
    rw [List.map_cons, List.nodup_cons] at h
    rw [List.countP_cons]
    by_cases hax : key a = x
    · have hz : t.countP (fun a => key a = x) = 0 := by
        rw [List.countP_eq_zero]
        intro b hb
        simp only [decide_eq_true_eq]
        intro hbx
        exact h.1 (by
          rw [hax, ← hbx]
          exact List.mem_map_of_mem key hb)
      simp [hz, hax]
    · simp [hax, ih h.2]

lemma countP_pos_of_any {α : Type} (key : α → String) {l : List α} {x : String}
    (h : l.any (fun a => key a = x) = true) :
    0 < l.countP (fun a => key a = x) := by
  rw [List.any_eq_true] at h
  obtain ⟨a, ha, hax⟩ := h
  exact List.countP_pos_iff.mpr ⟨a, ha, hax⟩

lemma map_ite_no_match {α : Type} (p : α → Prop) [DecidablePred p] (f : α → α)
    {l : List α} (h : ∀ a ∈ l, ¬ p a) :
    (l.map fun a => if p a then f a else a) = l := by
  induction l with
  | nil => rfl
  | cons a t ih =>
    simp only [List.map_cons, List.cons.injEq]
    exact ⟨if_neg (h a (List.mem_cons_self a t)),
           ih (fun b hb => h b (List.mem_cons_of_mem a hb))⟩

lemma onNodeCreated_countP {nodes : List FlowNode} (n : FlowNode)
    (hn : (nodes.map FlowNode.id).Nodup) :
    (onNodeCreated nodes n).countP (fun m => m.id = n.id) = 1 := by
  by_cases h : nodes.any (fun m => m.id = n.id) = true
  · rw [onNodeCreated, if_pos h]
    have h1 := countP_le_one_of_nodup_keys FlowNode.id hn n.id
    have h2 := countP_pos_of_any FlowNode.id h
    omega
  · rw [onNodeCreated, if_neg h, List.countP_append]
    have h0 : nodes.countP (fun m => m.id = n.id) = 0 := by
      rw [List.countP_eq_zero]
      intro b hb hbp
      exact h (List.any_eq_true.mpr ⟨b, hb, hbp⟩)
    simp [h0]

lemma onNodeCreated_already (nodes : List FlowNode) (n : FlowNode)
    (h : nodes.any (fun m => m.id = n.id) = true) :
    onNodeCreated nodes n = nodes := by
  rw [onNodeCreated, if_pos h]

lemma onNodeCreated_second {nodes : List FlowNode} (n : FlowNode)
    (hn : (nodes.map FlowNode.id).Nodup) :
    onNodeCreated (onNodeCreated nodes n) n = onNodeCreated nodes n := by
  have hc := onNodeCreated_countP n hn
  have hpos : 0 < (onNodeCreated nodes n).countP (fun m => m.id = n.id) := by omega
  obtain ⟨a, ha, hap⟩ := List.countP_pos_iff.mp hpos
  exact onNodeCreated_already _ n (List.any_eq_true.mpr ⟨a, ha, hap⟩)

lemma onEdgeCreated_countP {edges : List FlowEdge} (e : FlowEdge)
    (he : (edges.map FlowEdge.id).Nodup) :
    (onEdgeCreated edges e).countP (fun f => f.id = e.id) = 1 := by
  by_cases h : edges.any (fun f => f.id = e.id) = true
  · rw [onEdgeCreated, if_pos h]
    have h1 := countP_le_one_of_nodup_keys FlowEdge.id he e.id
    have h2 := countP_pos_of_any FlowEdge.id h
    omega
  · rw [onEdgeCreated, if_neg h, List.countP_append]
    have h0 : edges.countP (fun f => f.id = e.id) = 0 := by
      rw [List.countP_eq_zero]
      intro b hb hbp
      exact h (List.any_eq_true.mpr ⟨b, hb, hbp⟩)
    simp [h0]

lemma onEdgeCreated_already (edges : List FlowEdge) (e : FlowEdge)
    (h : edges.any (fun f => f.id = e.id) = true) :
    onEdgeCreated edges e = edges := by
  rw [onEdgeCreated, if_pos h]

lemma onEdgeCreated_second {edges : List FlowEdge} (e : FlowEdge)
    (he : (edges.map FlowEdge.id).Nodup) :
    onEdgeCreated (onEdgeCreated edges e) e = onEdgeCreated edges e := by
  have hc := onEdgeCreated_countP e he
  have hpos : 0 < (onEdgeCreated edges e).countP (fun f => f.id = e.id) := by omega
  obtain ⟨a, ha, hap⟩ := List.countP_pos_iff.mp hpos
  exact onEdgeCreated_already _ e (List.any_eq_true.mpr ⟨a, ha, hap⟩)

/-! ## Concrete fixtures used by witnesses and counterexamples -/

def nodeInfoA : NodeInfo :=
  { id := "a", pos_x := 0, pos_y := 0, locked := false
    system_id := 31000001, class_name := some "C3" }

def nodeInfoB : NodeInfo :=
  { id := "b", pos_x := 5, pos_y := 6, locked := false
    system_id := 31000002, class_name := some "C5" }

def nodeInfoC : NodeInfo :=
  { id := "c", pos_x := 9, pos_y := 9, locked := true
    system_id := 31000003, class_name := none }

def fnA : FlowNode := { id := "a", position := { x := 0, y := 0 }, data := nodeInfoA, draggable := true }

def fnB : FlowNode := { id := "b", position := { x := 1, y := 1 }, data := nodeInfoB, draggable := true }

def fnC : FlowNode := { id := "c", position := { x := 2, y := 2 }, data := nodeInfoC, draggable := false }

def linkAB : LinkInfo :=
  { id := "l1", source_node_id := "a", target_node_id := "b"
    wormhole_code := some "K162", mass_usage := 0, lifetime_status := "stable" }

def linkBA : LinkInfo :=
  { id := "l1", source_node_id := "b", target_node_id := "a"
    wormhole_code := some "H296", mass_usage := 1, lifetime_status := "aging" }

def feAB : FlowEdge :=
  { id := "l1", source := "a", target := "b", data := linkEdgeData linkAB }

def feCD : FlowEdge :=
  { id := "l2", source := "c", target := "d"
    data := { wormhole_id := none, mass_remaining := 0, status := "stable" } }

/-! ## Claims about the reconciler -/

/-- Claim C1: for an inbound `node_created` or `link_created` event, if the
store already contains an entity with the same id the event is a no-op,
otherwise the entity is appended; hence, in a store whose ids are unique,
applying the same creation event twice leaves exactly one entry with that id
after each application, and the second application changes nothing. -/
theorem C1_idempotent_creation
    (nodes : List FlowNode) (n : FlowNode)
    (edges : List FlowEdge) (e : FlowEdge)
    (hn : (nodes.map FlowNode.id).Nodup)
    (he : (edges.map FlowEdge.id).Nodup) :
    (nodes.any (fun m => m.id = n.id) = true → onNodeCreated nodes n = nodes)
    ∧ (nodes.any (fun m => m.id = n.id) = false → onNodeCreated nodes n = nodes ++ [n])
    ∧ (onNodeCreated nodes n).countP (fun m => m.id = n.id) = 1
    ∧ onNodeCreated (onNodeCreated nodes n) n = onNodeCreated nodes n
    ∧ (onNodeCreated (onNodeCreated nodes n) n).countP (fun m => m.id = n.id) = 1
    ∧ (edges.any (fun f => f.id = e.id) = true → onEdgeCreated edges e = edges)
    ∧ (edges.any (fun f => f.id = e.id) = false → onEdgeCreated edges e = edges ++ [e])
    ∧ (onEdgeCreated edges e).countP (fun f => f.id = e.id) = 1
    ∧ onEdgeCreated (onEdgeCreated edges e) e = onEdgeCreated edges e
    ∧ (onEdgeCreated (onEdgeCreated edges e) e).countP (fun f => f.id = e.id) = 1 := by
  refine ⟨fun h => onNodeCreated_already nodes n h,
          fun h => ?_,
          onNodeCreated_countP n hn,
          onNodeCreated_second n hn,
          ?_,
          fun h => onEdgeCreated_already edges e h,
          fun h => ?_,
          onEdgeCreated_countP e he,
          onEdgeCreated_second e he,
          ?_⟩
  · rw [onNodeCreated, if_neg (by simp [h])]
  · rw [onNodeCreated_second n hn]
    exact onNodeCreated_countP n hn
  · rw [onEdgeCreated, if_neg (by simp [h])]
  · rw [onEdgeCreated_second e he]
    exact onEdgeCreated_countP e he

/-- Witness for C1 at a concrete store and creation events. -/
theorem C1_idempotent_creation_witness :
    (([fnA].map FlowNode.id).Nodup ∧ ([feCD].map FlowEdge.id).Nodup)
    ∧ onNodeCreated (onNodeCreated [fnA] fnB) fnB = onNodeCreated [fnA] fnB
    ∧ (onNodeCreated (onNodeCreated [fnA] fnB) fnB).countP (fun m => m.id = fnB.id) = 1
    ∧ onEdgeCreated (onEdgeCreated [feCD] feAB) feAB = onEdgeCreated [feCD] feAB :=
  ⟨⟨by decide, by decide⟩,
   (C1_idempotent_creation [fnA] fnB [feCD] feAB (by decide) (by decide)).2.2.2.1,
   (C1_idempotent_creation [fnA] fnB [feCD] feAB (by decide) (by decide)).2.2.2.2.1,
   (C1_idempotent_creation [fnA] fnB [feCD] feAB (by decide) (by decide)).2.2.2.2.2.2.2.2.1⟩

/-- Counterexample to claim C2: applying a `node_updated` (resp.
`link_updated`) event whose id is absent from the store leaves the store
unchanged — nothing is appended, contradicting the claimed defensive
create-on-update.  Concretely: updating node id `b` in the store `[fnA]`
yields `[fnA]` again, with no entry of id `b`; likewise for a link event. -/
theorem C2_counterexample_update_absent_id_dropped :
    onNodeUpdated false [fnA] nodeInfoB = [fnA]
    ∧ (onNodeUpdated false [fnA] nodeInfoB).all (fun m => m.id ≠ "b") = true
    ∧ onEdgeUpdated [feCD] linkAB = [feCD]
    ∧ (onEdgeUpdated [feCD] linkAB).all (fun f => f.id ≠ "l1") = true := by
  refine ⟨?_, by decide, ?_, by decide⟩ <;> decide

/-- Claim C2 (amended): a `node_updated` or `link_updated` event whose id is
not present in the Local Graph Store is dropped: the store is left entirely
unchanged (no entity is appended and no entry is modified). -/
theorem C2_amended_update_absent_id_noop
    (isLocked : Bool) (nodes : List FlowNode) (nd : NodeInfo)
    (edges : List FlowEdge) (ld : LinkInfo)
    (hn : ∀ m ∈ nodes, m.id ≠ nd.id)
    (he : ∀ f ∈ edges, f.id ≠ ld.id) :
    onNodeUpdated isLocked nodes nd = nodes ∧ onEdgeUpdated edges ld = edges :=
  ⟨map_ite_no_match _ _ hn, map_ite_no_match _ _ he⟩

/-- Witness for the amended C2 at a concrete store. -/
theorem C2_amended_update_absent_id_noop_witness :
    ((∀ m ∈ [fnA, fnC], m.id ≠ nodeInfoB.id) ∧ (∀ f ∈ [feCD], f.id ≠ linkAB.id))
    ∧ onNodeUpdated false [fnA, fnC] nodeInfoB = [fnA, fnC]
    ∧ onEdgeUpdated [feCD] linkAB = [feCD] :=
  ⟨⟨by decide, by decide⟩,
   (C2_amended_update_absent_id_noop false [fnA, fnC] nodeInfoB [feCD] linkAB
     (by decide) (by decide)).1,
   (C2_amended_update_absent_id_noop false [fnA, fnC] nodeInfoB [feCD] linkAB
     (by decide) (by decide)).2⟩

/-- Claim C3: applying `node_updated` for B to a store `[A, B, C]` leaves the
entries A and C untouched (the very same objects are returned), while B's
position, data and draggability are replaced wholesale from the payload. -/
theorem C3_wholesale_update_preserves_siblings
    (isLocked : Bool) (a b c : FlowNode) (nd : NodeInfo)
    (ha : a.id ≠ nd.id) (hb : b.id = nd.id) (hc : c.id ≠ nd.id) :
    onNodeUpdated isLocked [a, b, c] nd =
      [a,
       { id := b.id
         position := { x := nd.pos_x, y := nd.pos_y }
         data := nd
         draggable := !isLocked && !nd.locked },
       c] := by
  simp only [onNodeUpdated, List.map_cons, List.map_nil, if_neg ha, if_pos hb, if_neg hc]

/-- Witness for C3 at a concrete three-node store. -/
theorem C3_wholesale_update_preserves_siblings_witness :
    (fnA.id ≠ nodeInfoB.id ∧ fnB.id = nodeInfoB.id ∧ fnC.id ≠ nodeInfoB.id)
    ∧ onNodeUpdated false [fnA, fnB, fnC] nodeInfoB =
        [fnA,
         { id := fnB.id
           position := { x := nodeInfoB.pos_x, y := nodeInfoB.pos_y }
           data := nodeInfoB
           draggable := !false && !nodeInfoB.locked },
         fnC] :=
  ⟨⟨by decide, by decide, by decide⟩,
   C3_wholesale_update_preserves_siblings false fnA fnB fnC nodeInfoB
     (by decide) (by decide) (by decide)⟩

lemma onEdgeUpdated_map_id (edges : List FlowEdge) (ld : LinkInfo) :
    (onEdgeUpdated edges ld).map FlowEdge.id = edges.map FlowEdge.id := by
  rw [onEdgeUpdated, List.map_map]
  apply List.map_congr_left
  intro e _
  by_cases h : e.id = ld.id
  · simp [h]
  · simp [h]

/-- Claim C4: a `link_updated` event updates the matching edge entry in
place: the collection keeps its length and its id sequence (so the update
can never appear as a delete + re-create), the matching slot keeps its id
while its source, target and display data are replaced wholesale from the
payload, and every other slot holds the exact same entry as before. -/
theorem C4_edge_update_in_place (edges : List FlowEdge) (ld : LinkInfo) :
    (onEdgeUpdated edges ld).length = edges.length
    ∧ (onEdgeUpdated edges ld).map FlowEdge.id = edges.map FlowEdge.id
    ∧ (∀ (i : Nat) (hi : i < edges.length) (hi2 : i < (onEdgeUpdated edges ld).length),
        ((edges.get ⟨i, hi⟩).id = ld.id →
          (onEdgeUpdated edges ld).get ⟨i, hi2⟩ =
            { id := (edges.get ⟨i, hi⟩).id
              source := ld.source_node_id
              target := ld.target_node_id
              data := linkEdgeData ld })
        ∧ ((edges.get ⟨i, hi⟩).id ≠ ld.id →
          (onEdgeUpdated edges ld).get ⟨i, hi2⟩ = edges.get ⟨i, hi⟩)) := by
  refine ⟨by simp [onEdgeUpdated], onEdgeUpdated_map_id edges ld, ?_⟩
  intro i hi hi2
  constructor
  · intro hmatch
    simp only [onEdgeUpdated, List.get_eq_getElem, List.getElem_map] at *
    rw [if_pos hmatch]
  · intro hmiss
    simp only [onEdgeUpdated, List.get_eq_getElem, List.getElem_map] at *
    rw [if_neg hmiss]

/-- Witness for C4: reversing the edge `l1` (swapped endpoints) in a concrete
two-edge store updates slot 1 in place and leaves slot 0 untouched. -/
theorem C4_edge_update_in_place_witness :
    (0 < ([feCD, feAB] : List FlowEdge).length
      ∧ 1 < ([feCD, feAB] : List FlowEdge).length
      ∧ 1 < (onEdgeUpdated [feCD, feAB] linkBA).length
      ∧ 0 < (onEdgeUpdated [feCD, feAB] linkBA).length)
    ∧ (onEdgeUpdated [feCD, feAB] linkBA).map FlowEdge.id = [feCD, feAB].map FlowEdge.id
    ∧ (onEdgeUpdated [feCD, feAB] linkBA).get ⟨1, by decide⟩ =
        { id := "l1", source := "b", target := "a", data := linkEdgeData linkBA }
    ∧ (onEdgeUpdated [feCD, feAB] linkBA).get ⟨0, by decide⟩ = feCD := by
  have h := C4_edge_update_in_place [feCD, feAB] linkBA
  refine ⟨⟨by decide, by decide, by decide, by decide⟩, h.2.1, ?_, ?_⟩
  · exact ((h.2.2 1 (by decide) (by decide)).1 (by decide))
  · exact ((h.2.2 0 (by decide) (by decide)).2 (by decide))

/-! ## Batch delete (`handleBeforeDelete` in `Map.svelte`)

The backend calls `removeNode` / `removeEdge` are modelled by success
oracles keyed on the entity id; the requests actually issued are collected
in order.  `runNodeDeletes` / `runEdgeDeletes` model the sequential `for`
loops with their early `return false` on the first failed deletion. -/

/-- A delete request issued to the backend. -/
inductive DeleteReq where
  | node (id : String)
  | edge (id : String)
  deriving DecidableEq, Repr

def DeleteReq.isEdge : DeleteReq → Bool
  | .node _ => false
  | .edge _ => true

/-- The node-deletion loop: each node's DELETE request is issued and awaited
in turn; on the first failure the loop stops, reporting failure. -/
def runNodeDeletes (nodeOk : String → Bool) : List FlowNode → Bool × List DeleteReq
  | [] => (true, [])
  | n :: rest =>
    if nodeOk n.id then
      let r := runNodeDeletes nodeOk rest
      (r.1, DeleteReq.node n.id :: r.2)
    else (false, [DeleteReq.node n.id])

/-- The edge-deletion loop, with the same sequential early-stop shape. -/
def runEdgeDeletes (edgeOk : String → Bool) : List FlowEdge → Bool × List DeleteReq
  | [] => (true, [])
  | e :: rest =>
    if edgeOk e.id then
      let r := runEdgeDeletes edgeOk rest
      (r.1, DeleteReq.edge e.id :: r.2)
    else (false, [DeleteReq.edge e.id])

/-- `handleBeforeDelete`: filter locked nodes out of the deletion set; if the
selection was non-empty and every selected node is locked, cancel outright;
otherwise delete the unlocked nodes in sequence, then (only if all node
deletions succeeded) the selected edges in sequence.  Returns the boolean
handed back to the flow library (whether local removal may proceed) together
with the list of issued delete requests. -/
def handleBeforeDelete (nodeOk edgeOk : String → Bool)
    (deletedNodes : List FlowNode) (deletedEdges : List FlowEdge) :
    Bool × List DeleteReq :=
  let unlocked := deletedNodes.filter (fun n => !n.data.locked)
  if deletedNodes.length > 0 ∧ unlocked.length = 0 then (false, [])
  else
    let nodeRes := runNodeDeletes nodeOk unlocked
    if nodeRes.1 then
      let edgeRes := runEdgeDeletes edgeOk deletedEdges
      (edgeRes.1, nodeRes.2 ++ edgeRes.2)
    else (false, nodeRes.2)

lemma runNodeDeletes_all_ok {nodeOk : String → Bool} {l : List FlowNode}
    (h : ∀ n ∈ l, nodeOk n.id = true) :
    runNodeDeletes nodeOk l = (true, l.map (fun n => DeleteReq.node n.id)) := by
  induction l with
  | nil => rfl
  | cons n t ih =>
    rw [runNodeDeletes, if_pos (h n (List.mem_cons_self n t)),
        ih (fun b hb => h b (List.mem_cons_of_mem n hb))]
    rfl

lemma runNodeDeletes_first_fail {nodeOk : String → Bool}
    (pre : List FlowNode) (f : FlowNode) (post : List FlowNode)
    (hpre : ∀ n ∈ pre, nodeOk n.id = true) (hf : nodeOk f.id = false) :
    runNodeDeletes nodeOk (pre ++ f :: post) =
      (false, pre.map (fun n => DeleteReq.node n.id) ++ [DeleteReq.node f.id]) := by
  induction pre with
  | nil =>
    rw [List.nil_append, runNodeDeletes, if_neg (by simp [hf])]
    rfl
  | cons n t ih =>
    rw [List.cons_append, runNodeDeletes, if_pos (hpre n (List.mem_cons_self n t)),
        ih (fun b hb => hpre b (List.mem_cons_of_mem n hb))]
    rfl

lemma runEdgeDeletes_all_ok {edgeOk : String → Bool} {l : List FlowEdge}
    (h : ∀ e ∈ l, edgeOk e.id = true) :
    runEdgeDeletes edgeOk l = (true, l.map (fun e => DeleteReq.edge e.id)) := by
  induction l with
  | nil => rfl
  | cons e t ih =>
    rw [runEdgeDeletes, if_pos (h e (List.mem_cons_self e t)),
        ih (fun b hb => h b (List.mem_cons_of_mem e hb))]
    rfl

lemma runEdgeDeletes_first_fail {edgeOk : String → Bool}
    (pre : List FlowEdge) (f : FlowEdge) (post : List FlowEdge)
    (hpre : ∀ e ∈ pre, edgeOk e.id = true) (hf : edgeOk f.id = false) :
    runEdgeDeletes edgeOk (pre ++ f :: post) =
      (false, pre.map (fun e => DeleteReq.edge e.id) ++ [DeleteReq.edge f.id]) := by
  induction pre with
  | nil =>
    rw [List.nil_append, runEdgeDeletes, if_neg (by simp [hf])]
    rfl
  | cons e t ih =>
    rw [List.cons_append, runEdgeDeletes, if_pos (hpre e (List.mem_cons_self e t)),
        ih (fun b hb => hpre b (List.mem_cons_of_mem e hb))]
    rfl

lemma runNodeDeletes_no_edge_req (nodeOk : String → Bool) (l : List FlowNode) :
    ∀ r ∈ (runNodeDeletes nodeOk l).2, r.isEdge = false := by
  induction l with
  | nil => intro r hr; cases hr
  | cons n t ih =>
    intro r hr
    rw [runNodeDeletes] at hr
    by_cases h : nodeOk n.id = true
    · rw [if_pos h] at hr
      rcases List.mem_cons.mp hr with h1 | h2
      · rw [h1]; rfl
      · exact ih r h2
    · rw [if_neg (by simpa using h)] at hr
      rcases List.mem_cons.mp hr with h1 | h2
      · rw [h1]; rfl
      · cases h2

lemma runNodeDeletes_req_shape (nodeOk : String → Bool) (l : List FlowNode) :
    ∀ r ∈ (runNodeDeletes nodeOk l).2, ∃ n ∈ l, r = DeleteReq.node n.id := by
  induction l with
  | nil => intro r hr; cases hr
  | cons n t ih =>
    intro r hr
    rw [runNodeDeletes] at hr
    by_cases h : nodeOk n.id = true
    · rw [if_pos h] at hr
      rcases List.mem_cons.mp hr with h1 | h2
      · exact ⟨n, List.mem_cons_self n t, h1⟩
      · obtain ⟨m, hm, hmr⟩ := ih r h2
        exact ⟨m, List.mem_cons_of_mem n hm, hmr⟩
    · rw [if_neg (by simpa using h)] at hr
      rcases List.mem_cons.mp hr with h1 | h2
      · exact ⟨n, List.mem_cons_self n t, h1⟩
      · cases h2

lemma runNodeDeletes_fst_iff (nodeOk : String → Bool) (l : List FlowNode) :
    (runNodeDeletes nodeOk l).1 = true ↔ ∀ n ∈ l, nodeOk n.id = true := by
  induction l with
  | nil => simp [runNodeDeletes]
  | cons n t ih =>
    by_cases h : nodeOk n.id = true
    · rw [runNodeDeletes, if_pos h]
      simp [h, ih]
    · rw [runNodeDeletes, if_neg (by simpa using h)]
      simp [h]

lemma runEdgeDeletes_only_edge_req (edgeOk : String → Bool) (l : List FlowEdge) :
    ∀ r ∈ (runEdgeDeletes edgeOk l).2, r.isEdge = true := by
  induction l with
  | nil => intro r hr; cases hr
  | cons e t ih =>
    intro r hr
    rw [runEdgeDeletes] at hr
    by_cases h : edgeOk e.id = true
    · rw [if_pos h] at hr
      rcases List.mem_cons.mp hr with h1 | h2
      · rw [h1]; rfl
      · exact ih r h2
    · rw [if_neg (by simpa using h)] at hr
      rcases List.mem_cons.mp hr with h1 | h2
      · rw [h1]; rfl
      · cases h2

/-- Unfolding lemma for `handleBeforeDelete` (zeta-reduced form). -/
lemma handleBeforeDelete_eq (nodeOk edgeOk : String → Bool)
    (nodes : List FlowNode) (edges : List FlowEdge) :
    handleBeforeDelete nodeOk edgeOk nodes edges =
      if nodes.length > 0 ∧ (nodes.filter (fun n => !n.data.locked)).length = 0 then
        (false, [])
      else if (runNodeDeletes nodeOk (nodes.filter (fun n => !n.data.locked))).1 then
        ((runEdgeDeletes edgeOk edges).1,
         (runNodeDeletes nodeOk (nodes.filter (fun n => !n.data.locked))).2
           ++ (runEdgeDeletes edgeOk edges).2)
      else
        (false, (runNodeDeletes nodeOk (nodes.filter (fun n => !n.data.locked))).2) := rfl

/-- Claim C5: the batch-delete gesture excludes locked nodes (a selection of
three nodes with exactly the second locked issues node-delete requests for
the first and third only, and never for the second); a non-empty,
all-locked selection issues no request at all and reports that it did not
proceed; and deletions are awaited in sequence, the batch reporting failure
as soon as a single deletion fails, with no further request issued. -/
theorem C5_locked_node_delete_guard
    (nodeOk edgeOk : String → Bool) (n1 n2 n3 : FlowNode) (edges : List FlowEdge)
    (h1 : n1.data.locked = false) (h2 : n2.data.locked = true)
    (h3 : n3.data.locked = false)
    (h21 : n2.id ≠ n1.id) (h23 : n2.id ≠ n3.id)
    (sel2 : List FlowNode) (edges2 : List FlowEdge)
    (hne : sel2 ≠ []) (hall : ∀ n ∈ sel2, n.data.locked = true)
    (sel3 : List FlowNode) (edges3 : List FlowEdge)
    (pre : List FlowNode) (f : FlowNode) (post : List FlowNode)
    (hsplit : sel3.filter (fun n => !n.data.locked) = pre ++ f :: post)
    (hpre : ∀ n ∈ pre, nodeOk n.id = true) (hf : nodeOk f.id = false)
    (nodeOk4 edgeOk4 : String → Bool) (sel4 : List FlowNode)
    (epre : List FlowEdge) (f4 : FlowEdge) (epost : List FlowEdge)
    (hguard4 : ¬(sel4.length > 0
        ∧ (sel4.filter (fun n => !n.data.locked)).length = 0))
    (hnodes4 : ∀ n ∈ sel4.filter (fun n => !n.data.locked), nodeOk4 n.id = true)
    (hepre : ∀ e ∈ epre, edgeOk4 e.id = true) (hef : edgeOk4 f4.id = false) :
    DeleteReq.node n2.id ∉ (handleBeforeDelete nodeOk edgeOk [n1, n2, n3] edges).2
    ∧ (nodeOk n1.id = true → nodeOk n3.id = true →
        (handleBeforeDelete nodeOk edgeOk [n1, n2, n3] edges).2.filter
            (fun r => !r.isEdge)
          = [DeleteReq.node n1.id, DeleteReq.node n3.id])
    ∧ handleBeforeDelete nodeOk edgeOk sel2 edges2 = (false, [])
    ∧ handleBeforeDelete nodeOk edgeOk sel3 edges3 =
        (false, pre.map (fun n => DeleteReq.node n.id) ++ [DeleteReq.node f.id])
    ∧ handleBeforeDelete nodeOk4 edgeOk4 sel4 (epre ++ f4 :: epost) =
        (false,
         (sel4.filter (fun n => !n.data.locked)).map (fun n => DeleteReq.node n.id)
           ++ (epre.map (fun e => DeleteReq.edge e.id) ++ [DeleteReq.edge f4.id])) := by
  have hu : List.filter (fun n => !n.data.locked) [n1, n2, n3] = [n1, n3] := by
    simp [List.filter, h1, h2, h3]
  have hguard :
      ¬(([n1, n2, n3] : List FlowNode).length > 0
        ∧ (List.filter (fun n => !n.data.locked) [n1, n2, n3]).length = 0) := by
    rw [hu]; simp
  refine ⟨?_, ?_, ?_, ?_, ?_⟩
  · intro hmem
    rw [handleBeforeDelete_eq, if_neg hguard] at hmem
    rw [hu] at hmem
    by_cases hfst : (runNodeDeletes nodeOk [n1, n3]).1 = true
    · rw [if_pos hfst] at hmem
      rcases List.mem_append.mp hmem with hside | hside
      · obtain ⟨m, hm, hmr⟩ := runNodeDeletes_req_shape nodeOk [n1, n3] _ hside
        have : n2.id = m.id := DeleteReq.node.inj hmr
        rcases List.mem_cons.mp hm with h | h
        · exact h21 (this.trans (congrArg FlowNode.id h))
        · rcases List.mem_cons.mp h with h | h
          · exact h23 (this.trans (congrArg FlowNode.id h))
          · cases h
      · have := runEdgeDeletes_only_edge_req edgeOk edges _ hside
        simp [DeleteReq.isEdge] at this
    · rw [if_neg hfst] at hmem
      obtain ⟨m, hm, hmr⟩ := runNodeDeletes_req_shape nodeOk [n1, n3] _ hmem
      have : n2.id = m.id := DeleteReq.node.inj hmr
      rcases List.mem_cons.mp hm with h | h
      · exact h21 (this.trans (congrArg FlowNode.id h))
      · rcases List.mem_cons.mp h with h | h
        · exact h23 (this.trans (congrArg FlowNode.id h))
        · cases h
  · intro hok1 hok3
    have hall13 : ∀ n ∈ ([n1, n3] : List FlowNode), nodeOk n.id = true := by
      intro n hn
      rcases List.mem_cons.mp hn with h | h
      · rw [h]; exact hok1
      · rcases List.mem_cons.mp h with h | h
        · rw [h]; exact hok3
        · cases h
    rw [handleBeforeDelete_eq, if_neg hguard, hu, runNodeDeletes_all_ok hall13]
    rw [if_pos rfl]
    simp only [List.filter_append]
    have hedge : (runEdgeDeletes edgeOk edges).2.filter (fun r => !r.isEdge) = [] := by
      rw [List.filter_eq_nil_iff]
      intro r hr
      rw [runEdgeDeletes_only_edge_req edgeOk edges r hr]
      decide
    rw [hedge, List.append_nil]
    rfl
  · have hempty : List.filter (fun n => !n.data.locked) sel2 = [] := by
      rw [List.filter_eq_nil_iff]
      intro n hn
      rw [hall n hn]
      decide
    rw [handleBeforeDelete_eq,
        if_pos ⟨List.length_pos.mpr hne, by rw [hempty]; rfl⟩]
  · have hguard3 :
        ¬((sel3 : List FlowNode).length > 0
          ∧ (List.filter (fun n => !n.data.locked) sel3).length = 0) := by
      rw [hsplit]
      intro hcontra
      simp at hcontra
    rw [handleBeforeDelete_eq, if_neg hguard3, hsplit,
        runNodeDeletes_first_fail pre f post hpre hf]
    simp
  · rw [handleBeforeDelete_eq, if_neg hguard4, runNodeDeletes_all_ok hnodes4,
        if_pos rfl, runEdgeDeletes_first_fail epre f4 epost hepre hef]

/-- Oracle with every backend deletion succeeding. -/
def okAll : String → Bool := fun _ => true

/-- Oracle where exactly the entity with id `x` fails to delete. -/
def failOnlyX : String → Bool := fun i => !(i == "x")

def nodeInfoX : NodeInfo :=
  { id := "x", pos_x := 3, pos_y := 3, locked := false
    system_id := 31000004, class_name := none }

def fnX : FlowNode :=
  { id := "x", position := { x := 3, y := 3 }, data := nodeInfoX, draggable := true }

def feX : FlowEdge :=
  { id := "x", source := "a", target := "c"
    data := { wormhole_id := none, mass_remaining := 0, status := "stable" } }

/-- Witness for C5: concrete selections against concrete deletion oracles. -/
theorem C5_locked_node_delete_guard_witness :
    (fnA.data.locked = false ∧ fnC.data.locked = true ∧ fnB.data.locked = false
      ∧ fnC.id ≠ fnA.id ∧ fnC.id ≠ fnB.id
      ∧ ([fnC] : List FlowNode) ≠ [] ∧ (∀ n ∈ [fnC], n.data.locked = true)
      ∧ [fnA, fnX].filter (fun n => !n.data.locked) = [fnA] ++ fnX :: []
      ∧ (∀ n ∈ [fnA], failOnlyX n.id = true) ∧ failOnlyX fnX.id = false)
    ∧ (handleBeforeDelete failOnlyX okAll [fnA, fnC, fnB] [feCD]).2.filter
          (fun r => !r.isEdge)
        = [DeleteReq.node fnA.id, DeleteReq.node fnB.id]
    ∧ handleBeforeDelete failOnlyX okAll [fnC] [] = (false, [])
    ∧ handleBeforeDelete failOnlyX okAll [fnA, fnX] [feCD] =
        (false, [fnA].map (fun n => DeleteReq.node n.id) ++ [DeleteReq.node fnX.id])
    ∧ handleBeforeDelete okAll failOnlyX [fnA] ([feCD] ++ feX :: []) =
        (false,
         ([fnA].filter (fun n => !n.data.locked)).map (fun n => DeleteReq.node n.id)
           ++ ([feCD].map (fun e => DeleteReq.edge e.id) ++ [DeleteReq.edge feX.id])) := by
  have h := C5_locked_node_delete_guard failOnlyX okAll fnA fnC fnB [feCD]
    (by decide) (by decide) (by decide) (by decide) (by decide)
    [fnC] [] (by decide) (by decide)
    [fnA, fnX] [feCD] [fnA] fnX [] (by decide) (by decide) (by decide)
    okAll failOnlyX [fnA] [feCD] feX [] (by decide) (by decide) (by decide) (by decide)
  exact ⟨⟨by decide, by decide, by decide, by decide, by decide, by decide,
          by decide, by decide, by decide, by decide⟩,
         h.2.1 (by decide) (by decide), h.2.2.1, h.2.2.2.1, h.2.2.2.2⟩

/-- Claim C10: in a batch delete, edge deletions are issued only after every
unlocked selected node was deleted successfully; when the batch proceeds and
every deletion succeeds, the issued requests are exactly the unlocked nodes
in selection order followed by every selected edge in order (edge deletion
is not filtered by any lock); and no edge request is issued when the batch
is cancelled because every selected node was locked, or when a node
deletion fails. -/
theorem C10_edge_deletes_after_node_deletes
    (nodeOk edgeOk : String → Bool) (sel : List FlowNode) (edges : List FlowEdge) :
    (∀ i, DeleteReq.edge i ∈ (handleBeforeDelete nodeOk edgeOk sel edges).2 →
       ∀ n ∈ sel.filter (fun n => !n.data.locked), nodeOk n.id = true)
    ∧ (¬(sel.length > 0 ∧ (sel.filter (fun n => !n.data.locked)).length = 0) →
       (∀ n ∈ sel.filter (fun n => !n.data.locked), nodeOk n.id = true) →
       (∀ e ∈ edges, edgeOk e.id = true) →
       handleBeforeDelete nodeOk edgeOk sel edges =
         (true,
          (sel.filter (fun n => !n.data.locked)).map (fun n => DeleteReq.node n.id)
            ++ edges.map (fun e => DeleteReq.edge e.id)))
    ∧ (sel ≠ [] → (∀ n ∈ sel, n.data.locked = true) →
       (handleBeforeDelete nodeOk edgeOk sel edges).2 = [])
    ∧ ((∃ n ∈ sel.filter (fun n => !n.data.locked), nodeOk n.id = false) →
       ∀ r ∈ (handleBeforeDelete nodeOk edgeOk sel edges).2, r.isEdge = false) := by
  refine ⟨?_, ?_, ?_, ?_⟩
  · intro i hmem
    rw [handleBeforeDelete_eq] at hmem
    by_cases hguard : sel.length > 0 ∧ (sel.filter (fun n => !n.data.locked)).length = 0
    · rw [if_pos hguard] at hmem
      cases hmem
    · rw [if_neg hguard] at hmem
      by_cases hfst : (runNodeDeletes nodeOk (sel.filter (fun n => !n.data.locked))).1 = true
      · exact (runNodeDeletes_fst_iff nodeOk _).mp hfst
      · rw [if_neg hfst] at hmem
        have := runNodeDeletes_no_edge_req nodeOk _ _ hmem
        simp [DeleteReq.isEdge] at this
  · intro hguard hnodes hedges
    rw [handleBeforeDelete_eq, if_neg hguard, runNodeDeletes_all_ok hnodes,
        runEdgeDeletes_all_ok hedges]
    rw [if_pos rfl]
  · intro hne hall
    have hempty : List.filter (fun n => !n.data.locked) sel = [] := by
      rw [List.filter_eq_nil_iff]
      intro n hn
      rw [hall n hn]
      decide
    rw [handleBeforeDelete_eq,
        if_pos ⟨List.length_pos.mpr hne, by rw [hempty]; rfl⟩]
  · intro hfail
    have hfst : ¬(runNodeDeletes nodeOk (sel.filter (fun n => !n.data.locked))).1 = true := by
      rw [runNodeDeletes_fst_iff]
      intro hcontra
      obtain ⟨n, hn, hnf⟩ := hfail
      rw [hcontra n hn] at hnf
      cases hnf
    intro r hr
    rw [handleBeforeDelete_eq] at hr
    by_cases hguard : sel.length > 0 ∧ (sel.filter (fun n => !n.data.locked)).length = 0
    · rw [if_pos hguard] at hr
      cases hr
    · rw [if_neg hguard, if_neg hfst] at hr
      exact runNodeDeletes_no_edge_req nodeOk _ r hr

/-- Witness for C10: on an all-successful run the unlocked node deletions
precede every edge deletion; on a run with a failing node deletion no edge
request is issued. -/
theorem C10_edge_deletes_after_node_deletes_witness :
    (¬(([fnA, fnC, fnB] : List FlowNode).length > 0
        ∧ ([fnA, fnC, fnB].filter (fun n => !n.data.locked)).length = 0)
      ∧ (∀ n ∈ [fnA, fnC, fnB].filter (fun n => !n.data.locked), okAll n.id = true)
      ∧ (∀ e ∈ [feCD, feAB], okAll e.id = true)
      ∧ (∃ n ∈ [fnA, fnX].filter (fun n => !n.data.locked), failOnlyX n.id = false))
    ∧ handleBeforeDelete okAll okAll [fnA, fnC, fnB] [feCD, feAB] =
        (true,
         ([fnA, fnC, fnB].filter (fun n => !n.data.locked)).map
             (fun n => DeleteReq.node n.id)
           ++ [feCD, feAB].map (fun e => DeleteReq.edge e.id))
    ∧ (∀ r ∈ (handleBeforeDelete failOnlyX okAll [fnA, fnX] [feCD]).2,
        r.isEdge = false) := by
  refine ⟨⟨by decide, by decide, by decide, ⟨fnX, by decide, by decide⟩⟩, ?_, ?_⟩
  · exact (C10_edge_deletes_after_node_deletes okAll okAll [fnA, fnC, fnB]
      [feCD, feAB]).2.1 (by decide) (by decide) (by decide)
  · exact (C10_edge_deletes_after_node_deletes failOnlyX okAll [fnA, fnX]
      [feCD]).2.2.2 ⟨fnX, by decide, by decide⟩

/-! ## Compound mutation `createNodeWithConnection` (`mapContextActions.ts`)

The two backend POSTs are modelled by an environment describing their
outcomes: `nodeResult` is `some nodeId` when node creation succeeds (the
created node's id, as returned in the response body) and `none` on error;
`linkOk` is the outcome of the follow-up link creation.  The requests the
action issues are collected in order. -/

/-- A mutation request issued to the backend by the compound action. -/
inductive MutationReq where
  | createNode (systemId : Nat) (posX posY : ℚ)
  | createLink (sourceNodeId targetNodeId : String) (wormholeId : Option Nat)
  | deleteNode (nodeId : String)
  deriving DecidableEq, Repr

structure CreateEnv where
  nodeResult : Option String
  linkOk : Bool

/-- `createNodeWithConnection`: create the target node first; on node-creation
failure return `{success: false}` at once; otherwise create the connecting
link; on link failure return `{success: false}` with no compensating node
deletion. -/
def createNodeWithConnection (env : CreateEnv) (sourceNodeId : String)
    (systemId : Nat) (posX posY : ℚ) (wormholeId : Option Nat) :
    Bool × List MutationReq :=
  match env.nodeResult with
  | none => (false, [MutationReq.createNode systemId posX posY])
  | some nodeId =>
    if env.linkOk then
      (true, [MutationReq.createNode systemId posX posY,
              MutationReq.createLink sourceNodeId nodeId wormholeId])
    else
      (false, [MutationReq.createNode systemId posX posY,
               MutationReq.createLink sourceNodeId nodeId wormholeId])

/-- Claim C6: `createNodeWithConnection` issues the node creation first; if
it fails the action returns failure having issued no link request; if the
node succeeds but the link fails, the action returns failure having issued
exactly the node and link requests and no compensating node deletion — the
created node is left in place. -/
theorem C6_create_node_with_connection_failures
    (env : CreateEnv) (src : String) (sys : Nat) (px py : ℚ) (wh : Option Nat) :
    (env.nodeResult = none →
      createNodeWithConnection env src sys px py wh =
        (false, [MutationReq.createNode sys px py]))
    ∧ (∀ nodeId, env.nodeResult = some nodeId → env.linkOk = false →
        createNodeWithConnection env src sys px py wh =
          (false, [MutationReq.createNode sys px py,
                   MutationReq.createLink src nodeId wh]))
    ∧ (∀ i, MutationReq.deleteNode i ∉ (createNodeWithConnection env src sys px py wh).2) := by
  refine ⟨?_, ?_, ?_⟩
  · intro h
    rw [createNodeWithConnection, h]
  · intro nodeId h hlink
    rw [createNodeWithConnection, h]
    simp [hlink]
  · intro i hmem
    obtain ⟨res, lok⟩ := env
    cases res with
    | none => simp [createNodeWithConnection] at hmem
    | some nodeId =>
      cases lok with
      | true => simp [createNodeWithConnection] at hmem
      | false => simp [createNodeWithConnection] at hmem

/-- Witness for C6 at both concrete failure environments. -/
theorem C6_create_node_with_connection_failures_witness :
    ((CreateEnv.mk none true).nodeResult = none
      ∧ (CreateEnv.mk (some "t") false).nodeResult = some "t"
      ∧ (CreateEnv.mk (some "t") false).linkOk = false)
    ∧ createNodeWithConnection (CreateEnv.mk none true) "a" 31000002 7 8 (some 11) =
        (false, [MutationReq.createNode 31000002 7 8])
    ∧ createNodeWithConnection (CreateEnv.mk (some "t") false) "a" 31000002 7 8 (some 11) =
        (false, [MutationReq.createNode 31000002 7 8,
                 MutationReq.createLink "a" "t" (some 11)])
    ∧ MutationReq.deleteNode "t" ∉
        (createNodeWithConnection (CreateEnv.mk (some "t") false) "a" 31000002 7 8
          (some 11)).2 := by
  refine ⟨⟨rfl, rfl, rfl⟩, ?_, ?_, ?_⟩
  · exact (C6_create_node_with_connection_failures (CreateEnv.mk none true) "a"
      31000002 7 8 (some 11)).1 rfl
  · exact (C6_create_node_with_connection_failures (CreateEnv.mk (some "t") false) "a"
      31000002 7 8 (some 11)).2.1 "t" rfl rfl
  · exact (C6_create_node_with_connection_failures (CreateEnv.mk (some "t") false) "a"
      31000002 7 8 (some 11)).2.2 "t"

/-! ## SSE event dispatch (`createMapSSE` in `mapSSE.ts`) and the client
reaction (the callback object built in `Map.svelte`)

Each named SSE event carries a JSON payload; a payload that fails
`JSON.parse` is modelled as `none`.  `dispatchEvent` mirrors the
`addEventListener` bodies: it returns the callbacks invoked for the event
and whether the handler closed the `EventSource`.  `applyCallback` mirrors
the callback object of `Map.svelte`, producing the updated client state
together with the side effects (toasts, navigation, full map reload). -/

/-- Payload of a `sync_error` frame; `message` is the optional string field. -/
structure SyncErrorPayload where
  message : Option String
  deriving DecidableEq, Repr

/-- Map metadata carried by `map_updated` frames. -/
structure MapInfo where
  owner_id : String
  edit_access : Bool
  edge_type : Option String
  rankdir : Option String
  deriving DecidableEq, Repr

/-- A named SSE event frame; `none` stands for a payload that fails to
parse.  Events whose handlers never parse a payload carry none. -/
inductive SSEEvent where
  | node_created (payload : Option NodeInfo)
  | node_updated (payload : Option NodeInfo)
  | node_deleted (payload : Option String)
  | link_created (payload : Option LinkInfo)
  | link_updated (payload : Option LinkInfo)
  | link_deleted (payload : Option String)
  | signature_created
  | signature_updated
  | signature_deleted
  | signatures_bulk_updated
  | note_created
  | note_updated
  | note_deleted
  | map_updated (payload : Option MapInfo)
  | map_deleted
  | access_character_revoked
  | access_corporation_revoked
  | access_alliance_revoked
  | sync_error (payload : Option SyncErrorPayload)
  deriving DecidableEq, Repr

/-- One invocation of a callback of the `MapSSECallbacks` record. -/
inductive MapCallback where
  | onNodeCreated (node : FlowNode)
  | onNodeUpdated (nodeData : NodeInfo)
  | onNodeDeleted (nodeId : String)
  | onEdgeCreated (edge : FlowEdge)
  | onEdgeUpdated (linkData : LinkInfo)
  | onEdgeDeleted (edgeId : String)
  | onMapUpdated (changes : MapInfo) (edgeType : String) (rankdir : String)
  | onMapDeleted
  | onAccessRevoked
  | onSyncError (message : String)
  | onSignatureChange
  | onNoteChange
  deriving DecidableEq, Repr

/-- The flow node built by the `node_created` listener. -/
def nodeFromPayload (nd : NodeInfo) : FlowNode :=
  { id := nd.id
    position := { x := nd.pos_x, y := nd.pos_y }
    data := nd
    draggable := !nd.locked }

/-- The flow edge built by the `link_created` listener. -/
def edgeFromPayload (ld : LinkInfo) : FlowEdge :=
  { id := ld.id
    source := ld.source_node_id
    target := ld.target_node_id
    data := linkEdgeData ld }

def syncErrorFallback : String := "Please reload the map"

/-- The message passed to `onSyncError`: `(data.message as string) || fallback`
(JavaScript falls back both when the field is absent and when it is the
empty string, which is falsy). -/
def syncErrorMessage (p : SyncErrorPayload) : String :=
  match p.message with
  | some s => if s = "" then syncErrorFallback else s
  | none => syncErrorFallback

/-- The listener bodies of `createMapSSE`: callbacks invoked for an event
frame, and whether the handler closed the connection.  A parse failure
(`none` payload) invokes nothing — except for `sync_error`, whose catch
branch still notifies with the fallback message, and which always closes
the `EventSource`. -/
def dispatchEvent : SSEEvent → List MapCallback × Bool
  | .node_created none => ([], false)
  | .node_created (some nd) => ([.onNodeCreated (nodeFromPayload nd)], false)
  | .node_updated none => ([], false)
  | .node_updated (some nd) => ([.onNodeUpdated nd], false)
  | .node_deleted none => ([], false)
  | .node_deleted (some i) => ([.onNodeDeleted i], false)
  | .link_created none => ([], false)
  | .link_created (some ld) => ([.onEdgeCreated (edgeFromPayload ld)], false)
  | .link_updated none => ([], false)
  | .link_updated (some ld) => ([.onEdgeUpdated ld], false)
  | .link_deleted none => ([], false)
  | .link_deleted (some i) => ([.onEdgeDeleted i], false)
  | .signature_created => ([.onSignatureChange], false)
  | .signature_updated => ([.onSignatureChange], false)
  | .signature_deleted => ([.onSignatureChange], false)
  | .signatures_bulk_updated => ([.onSignatureChange], false)
  | .note_created => ([.onNoteChange], false)
  | .note_updated => ([.onNoteChange], false)
  | .note_deleted => ([.onNoteChange], false)
  | .map_updated none => ([], false)
  | .map_updated (some c) =>
      ([.onMapUpdated c (c.edge_type.getD "default") (c.rankdir.getD "LR")], false)
  | .map_deleted => ([.onMapDeleted], false)
  | .access_character_revoked => ([.onAccessRevoked], false)
  | .access_corporation_revoked => ([.onAccessRevoked], false)
  | .access_alliance_revoked => ([.onAccessRevoked], false)
  | .sync_error none => ([.onSyncError syncErrorFallback], true)
  | .sync_error (some p) => ([.onSyncError (syncErrorMessage p)], true)

/-- The client-side state read and written by the callbacks of `Map.svelte`. -/
structure ClientState where
  nodes : List FlowNode
  edges : List FlowEdge
  mapInfo : Option MapInfo
  edgeType : String
  rankdir : String
  isLocked : Bool
  signatureRefresh : Nat
  noteRefresh : Nat
  deriving DecidableEq, Repr

structure Toast where
  title : String
  description : String
  deriving DecidableEq, Repr

/-- Result of letting a callback act on the client: the new state plus its
side effects (`reloaded` is a `loadMap()` call, `navigatedAway` a
`goto('/maps')`). -/
structure Reaction where
  state : ClientState
  reloaded : Bool
  navigatedAway : Bool
  toasts : List Toast
  deriving DecidableEq, Repr

def pureReaction (st : ClientState) : Reaction :=
  { state := st, reloaded := false, navigatedAway := false, toasts := [] }

/-- The callback object passed to `createMapSSE` by `Map.svelte`. -/
def applyCallback (st : ClientState) : MapCallback → Reaction
  | .onNodeCreated n => pureReaction { st with nodes := onNodeCreated st.nodes n }
  | .onNodeUpdated nd =>
      pureReaction { st with nodes := onNodeUpdated st.isLocked st.nodes nd }
  | .onNodeDeleted i => pureReaction { st with nodes := onNodeDeleted st.nodes i }
  | .onEdgeCreated e => pureReaction { st with edges := onEdgeCreated st.edges e }
  | .onEdgeUpdated ld => pureReaction { st with edges := onEdgeUpdated st.edges ld }
  | .onEdgeDeleted i => pureReaction { st with edges := onEdgeDeleted st.edges i }
  | .onMapUpdated c et rd =>
      pureReaction { st with mapInfo := some c, edgeType := et, rankdir := rd }
  | .onMapDeleted =>
      { state := st, reloaded := false, navigatedAway := true
        toasts := [{ title := "Map Deleted", description := "This map has been deleted" }] }
  | .onAccessRevoked =>
      { state := st, reloaded := false, navigatedAway := true
        toasts := [{ title := "Access Revoked"
                     description := "Your access to this map has been revoked" }] }
  | .onSyncError m =>
      { state := st, reloaded := true, navigatedAway := false
        toasts := [{ title := "Sync Error", description := m }] }
  | .onSignatureChange =>
      pureReaction { st with signatureRefresh := st.signatureRefresh + 1 }
  | .onNoteChange => pureReaction { st with noteRefresh := st.noteRefresh + 1 }

/-- Deliver one event frame end to end: dispatch it, let the invoked
callbacks act in order, and report whether the connection was closed. -/
def processEvent (st : ClientState) (ev : SSEEvent) : Reaction × Bool :=
  let d := dispatchEvent ev
  (d.1.foldl
    (fun r cb =>
      let r2 := applyCallback r.state cb
      { state := r2.state
        reloaded := r.reloaded || r2.reloaded
        navigatedAway := r.navigatedAway || r2.navigatedAway
        toasts := r.toasts ++ r2.toasts })
    (pureReaction st),
   d.2)

/-- Whether the frame's payload failed to parse. -/
def SSEEvent.malformed : SSEEvent → Bool
  | .node_created none => true
  | .node_updated none => true
  | .node_deleted none => true
  | .link_created none => true
  | .link_updated none => true
  | .link_deleted none => true
  | .map_updated none => true
  | .sync_error none => true
  | _ => false

def SSEEvent.isSyncError : SSEEvent → Bool
  | .sync_error _ => true
  | _ => false

/-- Claim C7: a `sync_error` event terminates the connection, notifies with
the payload's message or the fixed fallback string when the payload is
absent, malformed or empty, and triggers a full reload of the map, while
leaving the store itself untouched; every other event whose payload fails
to parse is dropped silently — no callback runs, nothing is mutated, no
toast is raised, and the stream stays open. -/
theorem C7_sync_error_terminates_others_drop_silently
    (st : ClientState) (p : Option SyncErrorPayload) (ev : SSEEvent) :
    (processEvent st (.sync_error p)).2 = true
    ∧ (processEvent st (.sync_error p)).1.reloaded = true
    ∧ (processEvent st (.sync_error p)).1.state = st
    ∧ (p = none →
        (processEvent st (.sync_error p)).1.toasts =
          [{ title := "Sync Error", description := "Please reload the map" }])
    ∧ (p = some { message := none } →
        (processEvent st (.sync_error p)).1.toasts =
          [{ title := "Sync Error", description := "Please reload the map" }])
    ∧ (p = some { message := some "" } →
        (processEvent st (.sync_error p)).1.toasts =
          [{ title := "Sync Error", description := "Please reload the map" }])
    ∧ (∀ s, p = some { message := some s } → s ≠ "" →
        (processEvent st (.sync_error p)).1.toasts =
          [{ title := "Sync Error", description := s }])
    ∧ (ev.malformed = true → ev.isSyncError = false →
        processEvent st ev = (pureReaction st, false)) := by
  refine ⟨?_, ?_, ?_, ?_, ?_, ?_, ?_, ?_⟩
  · cases p <;> rfl
  · cases p <;> rfl
  · cases p <;> rfl
  · intro h
    rw [h]
    rfl
  · intro h
    rw [h]
    rfl
  · intro h
    rw [h]
    rfl
  · intro s h hs
    rw [h]
    simp [processEvent, dispatchEvent, syncErrorMessage, applyCallback, pureReaction,
          if_neg hs]
  · intro hmal hnotsync
    cases ev <;>
      first
        | exact Bool.noConfusion hnotsync
        | exact Bool.noConfusion hmal
        | rfl
        | (rename_i p0
           cases p0
           · rfl
           · exact Bool.noConfusion hmal)

def stW : ClientState :=
  { nodes := [fnA], edges := [feCD], mapInfo := none, edgeType := "default"
    rankdir := "LR", isLocked := false, signatureRefresh := 0, noteRefresh := 0 }

/-- Witness for C7 at a concrete client state and concrete frames. -/
theorem C7_sync_error_terminates_others_drop_silently_witness :
    ((SSEEvent.node_created none).malformed = true
      ∧ (SSEEvent.node_created none).isSyncError = false
      ∧ ("Out of sync" : String) ≠ "")
    ∧ (processEvent stW (.sync_error (some { message := some "Out of sync" }))).2 = true
    ∧ (processEvent stW (.sync_error (some { message := some "Out of sync" }))).1.reloaded
        = true
    ∧ (processEvent stW (.sync_error (some { message := some "Out of sync" }))).1.toasts
        = [{ title := "Sync Error", description := "Out of sync" }]
    ∧ (processEvent stW (.sync_error none)).1.toasts
        = [{ title := "Sync Error", description := "Please reload the map" }]
    ∧ processEvent stW (.node_created none) = (pureReaction stW, false) := by
  have h1 := C7_sync_error_terminates_others_drop_silently stW
    (some { message := some "Out of sync" }) (.node_created none)
  have h2 := C7_sync_error_terminates_others_drop_silently stW none (.node_created none)
  exact ⟨⟨by decide, by decide, by decide⟩,
         h1.1, h1.2.1,
         h1.2.2.2.2.2.2.1 "Out of sync" rfl (by decide),
         h2.2.2.2.1 rfl,
         h1.2.2.2.2.2.2.2 (by decide) (by decide)⟩

/-! ## Viewport persister (`createViewportPersister` in `mapViewport.ts`)

`persist(viewport)` clears any armed debounce timer and arms a new 500ms
timer capturing the viewport; on expiry the callback compares against
`lastPersisted` with epsilon thresholds (0.1 for x and y, 0.001 for zoom)
and either skips or issues the PATCH.  The PATCH is made through
`openapi-fetch`, which resolves with an `{error}` value on HTTP error
statuses and only rejects on fetch-level (network) failure; the source
ignores the resolved value and runs `lastPersisted = {...viewport}`
afterwards, so only a rejected promise (which aborts the async callback at
the `await`) leaves `lastPersisted` unchanged.

JavaScript float comparisons `Math.abs(a - b) < t` on exact decimal inputs
are modelled on ℚ; `absDiffLt` cross-multiplies numerators and denominators
so that it evaluates by kernel reduction, and `absDiffLt_iff` proves it
equivalent to the field-level statement `|a - b| < t`. -/

/-- `Math.abs(a - b) < t` on rationals, by cross multiplication. -/
def absDiffLt (a b t : ℚ) : Bool :=
  decide ((a.num * (b.den : ℤ) - b.num * (a.den : ℤ)).natAbs * t.den
            < t.num.natAbs * (a.den * b.den))

lemma divInt_lt_divInt_iff {a b c d : ℤ} (b0 : 0 < b) (d0 : 0 < d) :
    Rat.divInt a b < Rat.divInt c d ↔ a * d < c * b := by
  rw [← not_le, Rat.divInt_le_divInt d0 b0, not_le]

/-- `absDiffLt` agrees with the exact rational statement of the source's
float comparison. -/
lemma absDiffLt_iff (a b t : ℚ) (ht : 0 < t) :
    absDiffLt a b t = true ↔ |a - b| < t := by
  have hM : (0 : ℤ) < (a.den : ℤ) * (b.den : ℤ) := by
    exact_mod_cast Nat.mul_pos a.den_pos b.den_pos
  have htden : (0 : ℤ) < (t.den : ℤ) := by exact_mod_cast t.den_pos
  have htnum : 0 < t.num := Rat.num_pos.mpr ht
  rw [absDiffLt, decide_eq_true_iff]
  rw [Rat.sub_def', Rat.mkRat_eq_divInt]
  conv_rhs => rw [abs_lt, ← Rat.num_divInt_den t]
  push_cast
  rw [Rat.neg_divInt, divInt_lt_divInt_iff htden hM, divInt_lt_divInt_iff hM htden,
      neg_mul, ← abs_lt, abs_mul, abs_of_pos htden]
  rw [← Int.ofNat_lt]
  push_cast
  rw [abs_of_pos htnum]

structure Viewport where
  x : ℚ
  y : ℚ
  zoom : ℚ
  deriving DecidableEq, Repr

/-- The source's position epsilon, 0.1. -/
def posThreshold : ℚ := mkRat 1 10

/-- The source's zoom epsilon, 0.001. -/
def zoomThreshold : ℚ := mkRat 1 1000

/-- The skip condition evaluated when the debounce timer fires: the viewport
has not meaningfully changed relative to `lastPersisted`. -/
def viewportUnchanged (v lp : Viewport) : Bool :=
  absDiffLt v.x lp.x posThreshold && absDiffLt v.y lp.y posThreshold
    && absDiffLt v.zoom lp.zoom zoomThreshold

lemma viewportUnchanged_self (v : Viewport) : viewportUnchanged v v = true := by
  have h : ∀ (q t : ℚ), 0 < t → absDiffLt q q t = true := by
    intro q t ht
    rw [absDiffLt_iff q q t ht, sub_self, abs_zero]
    exact ht
  rw [viewportUnchanged, h v.x posThreshold (by decide), h v.y posThreshold (by decide),
      h v.zoom zoomThreshold (by decide)]
  rfl

/-- Outcome of the viewport PATCH request: a 2xx response, a completed
request with an HTTP error response, or a rejected promise (network
failure). -/
inductive PatchOutcome where
  | ok
  | httpError
  | rejected
  deriving DecidableEq, Repr

/-- Persister closure state: the armed debounce timer's captured viewport
(if any) and `lastPersisted`. -/
structure PersisterState where
  pending : Option Viewport
  lastPersisted : Option Viewport
  deriving DecidableEq, Repr

def initialPersisterState : PersisterState :=
  { pending := none, lastPersisted := none }

/-- Observable operations on the persister: a `persist(v)` call, the expiry
of the armed debounce timer, and `cleanup()`. -/
inductive PersistOp where
  | persist (v : Viewport)
  | fire
  | cleanup
  deriving DecidableEq, Repr

def shouldSkip (lastPersisted : Option Viewport) (v : Viewport) : Bool :=
  match lastPersisted with
  | some lp => viewportUnchanged v lp
  | none => false

/-- The `setTimeout` callback body: skip when below threshold; otherwise
issue the PATCH, and update `lastPersisted` unless the request rejected
(a rejection aborts the async callback before the assignment).  Returns the
new state and the writes issued. -/
def fireTimer (outcome : Viewport → PatchOutcome) (s : PersisterState) :
    PersisterState × List Viewport :=
  match s.pending with
  | none => (s, [])
  | some v =>
    if shouldSkip s.lastPersisted v then
      ({ pending := none, lastPersisted := s.lastPersisted }, [])
    else
      match outcome v with
      | .rejected => ({ pending := none, lastPersisted := s.lastPersisted }, [v])
      | _ => ({ pending := none, lastPersisted := some v }, [v])

def stepPersister (outcome : Viewport → PatchOutcome) (s : PersisterState) :
    PersistOp → PersisterState × List Viewport
  | .persist v => ({ s with pending := some v }, [])
  | .fire => fireTimer outcome s
  | .cleanup => ({ s with pending := none }, [])

def runPersister (outcome : Viewport → PatchOutcome) (s : PersisterState) :
    List PersistOp → PersisterState × List Viewport
  | [] => (s, [])
  | op :: rest =>
    let r1 := stepPersister outcome s op
    let r2 := runPersister outcome r1.1 rest
    (r2.1, r1.2 ++ r2.2)

lemma fireTimer_writes (outcome : Viewport → PatchOutcome) (s : PersisterState) :
    (fireTimer outcome s).2 = []
    ∨ ∃ v, s.pending = some v ∧ (fireTimer outcome s).2 = [v] := by
  cases hp : s.pending with
  | none => left; simp [fireTimer, hp]
  | some v =>
    by_cases hskip : shouldSkip s.lastPersisted v = true
    · left; simp [fireTimer, hp, hskip]
    · right
      refine ⟨v, rfl, ?_⟩
      cases ho : outcome v <;> simp [fireTimer, hp, hskip, ho]

/-- Claim C8: two `persist` calls inside one debounce window coalesce into
at most one network write, and any write carries the second call's values;
and once a viewport has been committed, persisting the identical viewport
again (even twice) issues no further network write. -/
theorem C8_viewport_debounce_and_threshold
    (outcome : Viewport → PatchOutcome) (s1 s2 : PersisterState) (v1 v2 v : Viewport)
    (hcommitted : s2.lastPersisted = some v) :
    ((runPersister outcome s1 [.persist v1, .persist v2, .fire]).2.length ≤ 1
      ∧ ∀ w ∈ (runPersister outcome s1 [.persist v1, .persist v2, .fire]).2, w = v2)
    ∧ (runPersister outcome s2 [.persist v, .fire, .persist v, .fire]).2 = [] := by
  constructor
  · have hrun : (runPersister outcome s1 [.persist v1, .persist v2, .fire]).2
        = (fireTimer outcome { s1 with pending := some v2 }).2 := by
      simp [runPersister, stepPersister]
    rw [hrun]
    rcases fireTimer_writes outcome { s1 with pending := some v2 } with h | ⟨w, hw, hwr⟩
    · rw [h]
      exact ⟨by simp, by simp⟩
    · have hwv : w = v2 := by
        have : some v2 = some w := hw
        exact (Option.some.inj this).symm
      rw [hwr, hwv]
      exact ⟨by simp, by simp⟩
  · have hskip : shouldSkip s2.lastPersisted v = true := by
      rw [hcommitted, shouldSkip, viewportUnchanged_self v]
    simp [runPersister, stepPersister, fireTimer, hskip, hcommitted,
          shouldSkip, viewportUnchanged_self v]

def vBase : Viewport := { x := 100, y := 100, zoom := 1 }

/-- `persist({x:100.05, y:100, zoom:1})`: x differs from `vBase` by 0.05. -/
def vNear : Viewport := { x := mkRat 10005 100, y := 100, zoom := 1 }

def alwaysOk : Viewport → PatchOutcome := fun _ => .ok

/-- Witness for C8: the concrete scenario of the spec, with a committed
baseline of `{x:100, y:100, zoom:1}`. -/
theorem C8_viewport_debounce_and_threshold_witness :
    ({ pending := none, lastPersisted := some vBase } : PersisterState).lastPersisted
        = some vBase
    ∧ (runPersister alwaysOk initialPersisterState
        [.persist vBase, .persist vNear, .fire]).2.length ≤ 1
    ∧ (∀ w ∈ (runPersister alwaysOk initialPersisterState
        [.persist vBase, .persist vNear, .fire]).2, w = vNear)
    ∧ (runPersister alwaysOk initialPersisterState
        [.persist vBase, .persist vNear, .fire]).2 = [vNear]
    ∧ (runPersister alwaysOk { pending := none, lastPersisted := some vBase }
        [.persist vBase, .fire, .persist vBase, .fire]).2 = [] :=
  ⟨rfl,
   (C8_viewport_debounce_and_threshold alwaysOk initialPersisterState
     { pending := none, lastPersisted := some vBase } vBase vNear vBase rfl).1.1,
   (C8_viewport_debounce_and_threshold alwaysOk initialPersisterState
     { pending := none, lastPersisted := some vBase } vBase vNear vBase rfl).1.2,
   by decide,
   (C8_viewport_debounce_and_threshold alwaysOk initialPersisterState
     { pending := none, lastPersisted := some vBase } vBase vNear vBase rfl).2⟩

def alwaysHttpError : Viewport → PatchOutcome := fun _ => .httpError

def alwaysRejected : Viewport → PatchOutcome := fun _ => .rejected

/-- Counterexample to claim C9: a write that fails with an HTTP error
response still advances the comparison baseline, because the source ignores
the resolved `{error}` value and assigns `lastPersisted` after the `await`.
Concretely, persisting `{x:100, y:100, zoom:1}` against a backend that
answers every PATCH with an error issues the write, yet `lastPersisted`
becomes that viewport, and a subsequent `persist` with the same values is
skipped — no second network write is issued, contrary to the claim. -/
theorem C9_counterexample_http_error_advances_baseline :
    (runPersister alwaysHttpError initialPersisterState [.persist vBase, .fire]).2
        = [vBase]
    ∧ (runPersister alwaysHttpError initialPersisterState
        [.persist vBase, .fire]).1.lastPersisted = some vBase
    ∧ (runPersister alwaysHttpError
        (runPersister alwaysHttpError initialPersisterState [.persist vBase, .fire]).1
        [.persist vBase, .fire]).2 = [] := by
  refine ⟨?_, ?_, ?_⟩ <;> decide

/-- Claim C9 (amended): the skip comparison is made against `lastPersisted`,
which is updated after any PATCH whose promise resolves — error responses
included; only a write whose promise rejects (network failure) leaves the
baseline unchanged, and after such a rejected write a subsequent `persist`
with the same values still issues a network write. -/
theorem C9_amended_baseline_update_rule
    (outcome : Viewport → PatchOutcome) (s : PersisterState) (v : Viewport)
    (hns : shouldSkip s.lastPersisted v = false) :
    (outcome v = .rejected →
      (runPersister outcome s [.persist v, .fire]).2 = [v]
      ∧ (runPersister outcome s [.persist v, .fire]).1.lastPersisted = s.lastPersisted
      ∧ (runPersister outcome s [.persist v, .fire, .persist v, .fire]).2 = [v, v])
    ∧ (outcome v = .httpError →
      (runPersister outcome s [.persist v, .fire]).2 = [v]
      ∧ (runPersister outcome s [.persist v, .fire]).1.lastPersisted = some v)
    ∧ (outcome v = .ok →
      (runPersister outcome s [.persist v, .fire]).2 = [v]
      ∧ (runPersister outcome s [.persist v, .fire]).1.lastPersisted = some v) := by
  refine ⟨?_, ?_, ?_⟩
  · intro ho
    refine ⟨?_, ?_, ?_⟩ <;>
      simp [runPersister, stepPersister, fireTimer, hns, ho]
  · intro ho
    refine ⟨?_, ?_⟩ <;>
      simp [runPersister, stepPersister, fireTimer, hns, ho]
  · intro ho
    refine ⟨?_, ?_⟩ <;>
      simp [runPersister, stepPersister, fireTimer, hns, ho]

/-- Witness for the amended C9: a fresh persister against a network that
rejects every request issues the write, keeps the baseline empty, and
issues the write again on an identical follow-up `persist`. -/
theorem C9_amended_baseline_update_rule_witness :
    (shouldSkip initialPersisterState.lastPersisted vBase = false
      ∧ alwaysRejected vBase = .rejected)
    ∧ (runPersister alwaysRejected initialPersisterState [.persist vBase, .fire]).2 = [vBase]
    ∧ (runPersister alwaysRejected initialPersisterState
        [.persist vBase, .fire]).1.lastPersisted = initialPersisterState.lastPersisted
    ∧ (runPersister alwaysRejected initialPersisterState
        [.persist vBase, .fire, .persist vBase, .fire]).2 = [vBase, vBase] :=
  ⟨⟨rfl, rfl⟩,
   ((C9_amended_baseline_update_rule alwaysRejected initialPersisterState vBase rfl).1
     rfl).1,
   ((C9_amended_baseline_update_rule alwaysRejected initialPersisterState vBase rfl).1
     rfl).2.1,
   ((C9_amended_baseline_update_rule alwaysRejected initialPersisterState vBase rfl).1
     rfl).2.2⟩
